import Mathlib

/-!
Verification of the GHT face/eye detector (vision/src/ght_face_eyes.cpp).

This file gives a shallow embedding of the detector's core data model and
operations, translated function by function from the C++ source, and proves
properties of them.

Modeling conventions:
* machine integers (`int`, `uint16_t`, `uint8_t`) are `Int`/`Nat`; the only
  place the 16-bit width of an accumulator cell matters is the explicit
  saturation test `cell < 65535` of `voter`, which is kept literally;
* `float`/`double` values are modeled exactly.  Every real-valued quantity
  of the program is a ratio of integer quantities (vote sums and coordinate
  sums), so it is represented by an explicit numerator/denominator pair
  (`Frac`), never normalized, with comparisons by cross multiplication.
  `std::lround` becomes `lroundFrac`/`lroundRat`, the exact
  round-half-away-from-zero of such a ratio;
* `std::sqrt` followed by `lround` becomes `roundSqrt`, the exact nearest
  integer to the real square root (ties cannot occur at integer radicands);
* `atan2` followed by degree conversion, `lround` and reduction mod 360
  (`binDeg` in the source) becomes `binDegAtan2`, computed by octant
  reduction and comparison against the half-degree tangent boundaries
  (scaled by 10^6; the gradients produced by a 3x3 Sobel kernel never fall
  close enough to a boundary for the scaling to matter, and all concrete
  inputs used below have axis-aligned gradients where the value is exact);
* 2-D buffers (images, gradient fields, accumulators) are width/height plus
  a total function of the coordinates, read in the source's `at(y, x)` order.
-/

/-- `clampInt` from the source: clamp `v` into `[minV, maxV]`. -/
def clampInt (v minV maxV : Int) : Int :=
  if v < minV then minV else if v > maxV then maxV else v

/-- Exact `std::lround` of the nonnegative rational `num / den` (`den > 0`):
round half away from zero, which for a nonnegative value is
`⌊num/den + 1/2⌋ = (2*num + den) / (2*den)` in natural division. -/
def lroundNat (num den : Nat) : Nat := (2 * num + den) / (2 * den)

/-- Exact `std::lround` of the rational `num / den` with `den > 0`, as a
signed integer: round half away from zero. -/
def lroundRat (num den : Int) : Int :=
  if 0 ≤ num then (2 * num + den) / (2 * den)
  else -((2 * (-num) + den) / (2 * den))

/-- The integer square root `⌊√n⌋`, as a count: the number of `s ≤ n` with
`s * s ≤ n` is `⌊√n⌋ + 1`. -/
def isqrt (n : Nat) : Nat :=
  (((List.range (n + 1)).filter fun s => s * s ≤ n).length) - 1

/-- Exact `lround(sqrt n)` for a natural radicand: the nearest integer to
`√n`.  A tie `√n = m + 1/2` would need `4*n = (2*m+1)^2`, impossible for
integer `n` against an odd square, so nearest-integer is unambiguous. -/
def roundSqrt (n : Nat) : Nat :=
  let s := isqrt n
  if 4 * n < (2 * s + 1) ^ 2 then s else s + 1

/-- `tan((j + 1/2) degrees) * 10^6`, rounded, for `j = 0..44`: the
half-degree bin boundaries of the first octant used by `binDegAtan2`. -/
def tanHalfMicro : List Int :=
  [8727, 26186, 43661, 61163, 78702, 96289, 113936, 131652, 149451, 167343,
   185339, 203452, 221695, 240079, 258618, 277325, 296213, 315299, 334595,
   354119, 373885, 393910, 414214, 434812, 455726, 476976, 498582, 520567,
   542956, 565773, 589045, 612801, 637070, 661886, 687281, 713293, 739961,
   767327, 795436, 824336, 854081, 884725, 916331, 948965, 982697]

/-- Nearest-degree `atan(p / q)` for `0 ≤ p`, `0 < q`, `p ≤ q` (first
octant, result in `0..45`): the number of half-degree boundaries at or
below the ratio. -/
def atanDegFO (p q : Nat) : Nat :=
  (tanHalfMicro.filter (fun t => t * (q : Int) ≤ (p : Int) * 1000000)).length

/-- The source's `binDeg(atan2(gy, gx))`: the gradient orientation rounded
to the nearest integer degree, reduced into `0..359`.  `atan2(0, 0) = 0`
as in the C library. -/
def binDegAtan2 (gy gx : Int) : Nat :=
  if gx = 0 ∧ gy = 0 then 0
  else
    let p := gy.natAbs
    let q := gx.natAbs
    let a := if p ≤ q then atanDegFO p q else 90 - atanDegFO q p
    if 0 ≤ gx then
      if 0 ≤ gy then a % 360 else (360 - a) % 360
    else
      if 0 ≤ gy then 180 - a else (180 + a) % 360

/-- An unreduced nonnegative rational `num / den`: the exact value of the
`float`/`double` barycenter coordinates of the source, which are ratios of
vote-weighted coordinate sums over vote sums. -/
structure Frac where
  num : Nat
  den : Nat
deriving DecidableEq

/-- A natural number as a `Frac`. -/
def Frac.ofNat (n : Nat) : Frac := ⟨n, 1⟩

/-- Exact comparison of two `Frac`s (cross multiplication; dens positive). -/
def Frac.fle (a b : Frac) : Prop := a.num * b.den ≤ b.num * a.den

instance : DecidablePred (fun p : Frac × Frac => p.1.fle p.2) := fun _ => by
  unfold Frac.fle; infer_instance

instance (a b : Frac) : Decidable (a.fle b) := by
  unfold Frac.fle; infer_instance

/-- Exact difference `b - a` of two `Frac`s with `a.fle b` (truncated at 0
otherwise, a case the detector never reaches because it subtracts only
ordered coordinates). -/
def Frac.sub (b a : Frac) : Frac := ⟨b.num * a.den - a.num * b.den, a.den * b.den⟩

/-- Exact `fabs(b - a)` of two `Frac`s. -/
def Frac.absSub (b a : Frac) : Frac :=
  ⟨max (b.num * a.den) (a.num * b.den) - min (b.num * a.den) (a.num * b.den),
   a.den * b.den⟩

/-- Exact `std::lround` of a `Frac` (nonnegative, so half rounds up). -/
def Frac.lround (f : Frac) : Nat := lroundNat f.num f.den

/-- `grayImage` from the source: an 8-bit grayscale buffer addressed
`at(y, x)`, modeled as a total function on coordinates. -/
structure GrayImage where
  w : Nat
  h : Nat
  p : Nat → Nat → Nat

/-- `makeGris` from the source: a uniform image of the given value. -/
def makeGris (w h : Nat) (value : Nat) : GrayImage := ⟨w, h, fun _ _ => value⟩

/-- The clamped read `at(y, x)` used by `sobel`: coordinates are clamped to
the nearest valid pixel. -/
def sobelAt (img : GrayImage) (y x : Int) : Int :=
  img.p (clampInt y 0 ((img.h : Int) - 1)).toNat (clampInt x 0 ((img.w : Int) - 1)).toNat

/-- The horizontal Sobel response `gx` at `(y, x)`. -/
def sobelGx (img : GrayImage) (y x : Int) : Int :=
  -1 * sobelAt img (y - 1) (x - 1) + 1 * sobelAt img (y - 1) (x + 1) +
  -2 * sobelAt img y (x - 1) + 2 * sobelAt img y (x + 1) +
  -1 * sobelAt img (y + 1) (x - 1) + 1 * sobelAt img (y + 1) (x + 1)

/-- The vertical Sobel response `gy` at `(y, x)`. -/
def sobelGy (img : GrayImage) (y x : Int) : Int :=
  -1 * sobelAt img (y - 1) (x - 1) + -2 * sobelAt img (y - 1) x + -1 * sobelAt img (y - 1) (x + 1) +
  1 * sobelAt img (y + 1) (x - 1) + 2 * sobelAt img (y + 1) x + 1 * sobelAt img (y + 1) (x + 1)

/-- `ChampGradient` from the source: per-pixel gradient magnitude and angle
bin. -/
structure ChampGradient where
  w : Nat
  h : Nat
  m : Nat → Nat → Nat
  a : Nat → Nat → Nat

/-- `sobel` from the source: magnitude `lround(sqrt(gx^2 + gy^2))` clamped
into a `uint16_t`, and angle bin `binDeg(atan2(gy, gx))`. -/
def sobel (img : GrayImage) : ChampGradient :=
  { w := img.w, h := img.h,
    m := fun y x =>
      min (roundSqrt ((sobelGx img y x * sobelGx img y x +
        sobelGy img y x * sobelGy img y x).toNat)) 65535,
    a := fun y x => binDegAtan2 (sobelGy img y x) (sobelGx img y x) }

/-- The row-major enumeration of the pixel coordinates `(y, x)` of a
`w × h` buffer, in the order of the source's double loops
(`for y { for x { ... } }`). -/
def rowMajor (w h : Nat) : List (Nat × Nat) :=
  (List.range (h * w)).map fun i => (i / w, i % w)

/-- `RTable` from the source: 360 angle buckets (indexed by angle bin),
each a list of `(dx, dy)` offsets. -/
def RTable : Type := Nat → List (Int × Int)

/-- `construireRTableDepuisTemplate` from the source: run Sobel on the
template; every pixel whose magnitude lies in `[minMag, maxMag]` pushes the
offset `(cx - x, cy - y)` to the template center onto its angle's bucket.
No bucket has any capacity bound. -/
def construireRTableDepuisTemplate (templ : GrayImage) (minMag maxMag : Nat) : RTable :=
  let g := sobel templ
  let cx := templ.w / 2
  let cy := templ.h / 2
  (rowMajor templ.w templ.h).foldl
    (fun rt yx =>
      let mag := g.m yx.1 yx.2
      if mag < minMag ∨ mag > maxMag then rt
      else fun b =>
        if b = g.a yx.1 yx.2 then
          rt b ++ [((cx : Int) - yx.2, (cy : Int) - yx.1)]
        else rt b)
    (fun _ => [])

/-- `AccuImage` from the source: a grid of `uint16_t` vote counters. -/
structure AccuImage where
  w : Nat
  h : Nat
  a : Nat → Nat → Nat

/-- `makeAccu` from the source: an all-zero accumulator. -/
def makeAccu (w h : Nat) : AccuImage := ⟨w, h, fun _ _ => 0⟩

/-- One vote into a cell: the source's `if (cell < 65535) cell++`, the
saturating increment of a 16-bit counter. -/
def bumpCell (c : Nat) : Nat := if c < 65535 then c + 1 else c

/-- Cast the votes of one offset list from an edge pixel at `(x, y)`: each
offset produces a candidate center; out-of-bounds candidates are skipped,
in-bounds ones get a saturating increment. -/
def voteOffsets (A : AccuImage) (x y : Nat) (vec : List (Int × Int)) : AccuImage :=
  vec.foldl
    (fun B d =>
      let cx := (x : Int) + d.1
      let cy := (y : Int) + d.2
      if cx < 0 ∨ cy < 0 ∨ cx ≥ (B.w : Int) ∨ cy ≥ (B.h : Int) then B
      else
        { B with a := fun y2 x2 =>
            if y2 = cy.toNat ∧ x2 = cx.toNat then bumpCell (B.a y2 x2) else B.a y2 x2 })
    A

/-- The body of `voter`'s pixel loop: a pixel below the magnitude threshold
or with an empty bucket casts no votes; otherwise its bucket votes. -/
def voterPixel (grads : ChampGradient) (rtable : RTable)
    (seuilMag : Nat) (A : AccuImage) (yx : Nat × Nat) : AccuImage :=
  let mag := grads.m yx.1 yx.2
  if mag < seuilMag then A
  else
    let vec := rtable (grads.a yx.1 yx.2)
    if vec.isEmpty then A
    else voteOffsets A yx.2 yx.1 vec

/-- `voter` from the source: scan all pixels of the image in row-major
order and accumulate their votes. -/
def voter (A : AccuImage) (img : GrayImage) (grads : ChampGradient)
    (rtable : RTable) (seuilMag : Nat) : AccuImage :=
  (rowMajor img.w img.h).foldl (voterPixel grads rtable seuilMag) A

/-- `PicBary` from the source: result of the global-max-with-barycenter
peak extractor. -/
structure PicBary where
  ok : Bool
  bx : Frac
  bY : Frac
  peak : Nat

/-- One step of the argmax scan of `barycentreLocalAutourMax`: the state is
`(peak, px, py)`, updated on `v >= peak` (so a tie moves the position to
the later cell). -/
def maxScanStep (A : AccuImage) (s : Nat × Nat × Nat) (yx : Nat × Nat) : Nat × Nat × Nat :=
  if s.1 ≤ A.a yx.1 yx.2 then (A.a yx.1 yx.2, yx.2, yx.1) else s

/-- The argmax scan of `barycentreLocalAutourMax`: row-major fold of
`maxScanStep` from `(0, 0, 0)`. -/
def scanMax (A : AccuImage) : Nat × Nat × Nat :=
  (rowMajor A.w A.h).foldl (maxScanStep A) (0, 0, 0)

/-- The vote mass of the window `[x0, x1] × [y0, y1]` (the source's `sum`;
a sum of 16-bit counters held in a `double`, hence exact). -/
def windowSum (A : AccuImage) (x0 x1 y0 y1 : Nat) : Nat :=
  ∑ y ∈ Finset.Icc y0 y1, ∑ x ∈ Finset.Icc x0 x1, A.a y x

/-- The x-moment of the window (the source's `sx`). -/
def windowSx (A : AccuImage) (x0 x1 y0 y1 : Nat) : Nat :=
  ∑ y ∈ Finset.Icc y0 y1, ∑ x ∈ Finset.Icc x0 x1, A.a y x * x

/-- The y-moment of the window (the source's `sy`). -/
def windowSy (A : AccuImage) (x0 x1 y0 y1 : Nat) : Nat :=
  ∑ y ∈ Finset.Icc y0 y1, ∑ x ∈ Finset.Icc x0 x1, A.a y x * y

/-- `barycentreLocalAutourMax` from the source: find the global max (ties
to the last cell in scan order), fail when it is zero; otherwise refine to
the vote-weighted centroid of the clamped window of the given radius
around the argmax, failing when the window mass is zero. -/
def barycentreLocalAutourMax (A : AccuImage) (radius : Int) : PicBary :=
  let s := scanMax A
  if s.1 = 0 then ⟨false, ⟨0, 1⟩, ⟨0, 1⟩, 0⟩
  else
    let x0 := (clampInt ((s.2.1 : Int) - radius) 0 ((A.w : Int) - 1)).toNat
    let x1 := (clampInt ((s.2.1 : Int) + radius) 0 ((A.w : Int) - 1)).toNat
    let y0 := (clampInt ((s.2.2 : Int) - radius) 0 ((A.h : Int) - 1)).toNat
    let y1 := (clampInt ((s.2.2 : Int) + radius) 0 ((A.h : Int) - 1)).toNat
    let sum := windowSum A x0 x1 y0 y1
    if sum ≤ 0 then ⟨false, ⟨0, 1⟩, ⟨0, 1⟩, s.1⟩
    else ⟨true, ⟨windowSx A x0 x1 y0 y1, sum⟩, ⟨windowSy A x0 x1 y0 y1, sum⟩, s.1⟩

/-- A candidate cell of `topKpicsAvecBary` (the source's local `Cand`). -/
structure Cand where
  x : Nat
  y : Nat
  v : Nat
deriving DecidableEq

/-- `PicPoint` from the source: an accepted peak with raw position,
refined centroid and vote value. -/
structure PicPoint where
  x : Nat
  y : Nat
  bx : Frac
  bY : Frac
  v : Nat
deriving DecidableEq

/-- The candidate collection pass of `topKpicsAvecBary`: all cells at or
above `minVal`, in row-major scan order. -/
def candidats (A : AccuImage) (minVal : Nat) : List Cand :=
  (rowMajor A.w A.h).filterMap fun yx =>
    if A.a yx.1 yx.2 ≥ minVal then some ⟨yx.2, yx.1, A.a yx.1 yx.2⟩ else none

/-- Insertion step of the descending sort of candidates. -/
def insertDesc (c : Cand) : List Cand → List Cand
  | [] => [c]
  | d :: t => if d.v < c.v then c :: d :: t else d :: insertDesc c t

/-- The source's `std::sort(cands, v-descending)`, modeled by a stable
insertion sort (the comparator makes tie order unspecified in C++; the
model fixes it to scan order). -/
def sortDesc : List Cand → List Cand
  | [] => []
  | c :: t => insertDesc c (sortDesc t)

/-- The NMS test of `topKpicsAvecBary`: is candidate `c` within the
suppression radius of an already accepted peak? -/
def tropProche (nmsRadius : Int) (out : List PicPoint) (c : Cand) : Bool :=
  out.any fun p =>
    ((c.x : Int) - p.x) * ((c.x : Int) - p.x) +
      ((c.y : Int) - p.y) * ((c.y : Int) - p.y) ≤ nmsRadius * nmsRadius

/-- The barycenter of the clamped window around an accepted candidate in
`topKpicsAvecBary`, with fallback to the raw position when the window mass
is zero. -/
def baryAutour (A : AccuImage) (cx cy : Nat) (baryRadius : Int) : Frac × Frac :=
  let x0 := (clampInt ((cx : Int) - baryRadius) 0 ((A.w : Int) - 1)).toNat
  let x1 := (clampInt ((cx : Int) + baryRadius) 0 ((A.w : Int) - 1)).toNat
  let y0 := (clampInt ((cy : Int) - baryRadius) 0 ((A.h : Int) - 1)).toNat
  let y1 := (clampInt ((cy : Int) + baryRadius) 0 ((A.h : Int) - 1)).toNat
  let sum := windowSum A x0 x1 y0 y1
  if sum > 0 then (⟨windowSx A x0 x1 y0 y1, sum⟩, ⟨windowSy A x0 x1 y0 y1, sum⟩)
  else (Frac.ofNat cx, Frac.ofNat cy)

/-- The greedy acceptance loop of `topKpicsAvecBary` over the sorted
candidates: skip a candidate too close to an accepted peak, otherwise
accept it (with its barycenter) and stop once `k` peaks are accepted. -/
def topKboucle (A : AccuImage) (k nmsRadius baryRadius : Int) :
    List Cand → List PicPoint → List PicPoint
  | [], out => out
  | c :: cs, out =>
    if tropProche nmsRadius out c then topKboucle A k nmsRadius baryRadius cs out
    else
      let b := baryAutour A c.x c.y baryRadius
      let out2 := out ++ [⟨c.x, c.y, b.1, b.2, c.v⟩]
      if (out2.length : Int) ≥ k then out2 else topKboucle A k nmsRadius baryRadius cs out2

/-- `topKpicsAvecBary` from the source: candidates at or above `minVal`,
sorted by descending vote value, then greedy NMS acceptance of up to `k`
peaks.  The accumulator is taken by const reference in the source: it is
never modified. -/
def topKpicsAvecBary (A : AccuImage) (k nmsRadius baryRadius : Int) (minVal : Nat) :
    List PicPoint :=
  topKboucle A k nmsRadius baryRadius (sortDesc (candidats A minVal)) []

/-- The left/right ordering of a candidate pair in `choisirPaireYeux`:
the peak with the smaller refined x becomes the left eye (ties keep the
first). -/
def ordonnerPaire (p1 p2 : PicPoint) : PicPoint × PicPoint :=
  if p1.bx.fle p2.bx then (p1, p2) else (p2, p1)

/-- All unordered pairs of a list, in the order of the source's
`for i { for j > i { ... } }` double loop. -/
def pairesDepuis : List PicPoint → List (PicPoint × PicPoint)
  | [] => []
  | p :: t => (t.map fun q => (p, q)) ++ pairesDepuis t

/-- The eligibility test of `choisirPaireYeux` on an ordered pair: the
rounded horizontal separation lies in `[minDx, maxDx]`, the rounded
vertical separation is at most `maxDy`, and both rounded refined heights
are at or above the face center row (`lround(by) > faceCy` rejects). -/
def paireEligible (faceCyInZone minDx maxDx maxDy : Int) (p1 p2 : PicPoint) : Bool :=
  let L := (ordonnerPaire p1 p2).1
  let R := (ordonnerPaire p1 p2).2
  let dx : Int := ((R.bx.sub L.bx).lround : Nat)
  let dy : Int := ((R.bY.absSub L.bY).lround : Nat)
  decide (minDx ≤ dx ∧ dx ≤ maxDx ∧ dy ≤ maxDy ∧
    (L.bY.lround : Int) ≤ faceCyInZone ∧ (R.bY.lround : Int) ≤ faceCyInZone)

/-- One step of the pair-scan loop of `choisirPaireYeux`: an eligible pair
replaces the running best exactly when its summed vote value is strictly
larger (or nothing has been found yet); the state is `none` (the source's
`found = false`) or `some (best, L, R)`. -/
def choisirStep (faceCyInZone minDx maxDx maxDy : Int)
    (st : Option (Nat × PicPoint × PicPoint)) (pr : PicPoint × PicPoint) :
    Option (Nat × PicPoint × PicPoint) :=
  if paireEligible faceCyInZone minDx maxDx maxDy pr.1 pr.2 then
    let L := (ordonnerPaire pr.1 pr.2).1
    let R := (ordonnerPaire pr.1 pr.2).2
    let score := L.v + R.v
    match st with
    | none => some (score, L, R)
    | some s => if s.1 < score then some (score, L, R) else st
  else st

/-- `choisirPaireYeux` from the source: scan all pairs in loop order with
`choisirStep`.  `faceCxInZone` is a parameter the source never reads; it is
kept for signature fidelity. -/
def choisirPaireYeux (pics : List PicPoint) (faceCxInZone faceCyInZone : Int)
    (minDx maxDx maxDy : Int) : Option (PicPoint × PicPoint) :=
  ((pairesDepuis pics).foldl (choisirStep faceCyInZone minDx maxDx maxDy)
    none).map fun s => (s.2.1, s.2.2)

/-- `templateEllipse` from the source: black ellipse band on white.  The
float test `|dx²/rx² + dy²/ry² - 1| < 0.03` is stated exactly over the
integers after clearing the (positive) denominators. -/
def templateEllipse (w h : Nat) (rx ry : Int) : GrayImage :=
  ⟨w, h, fun y x =>
    let dx : Int := (x : Int) - ((w / 2 : Nat) : Int)
    let dy : Int := (y : Int) - ((h / 2 : Nat) : Int)
    if 100 * (dx * dx * (ry * ry) + dy * dy * (rx * rx) - rx * rx * (ry * ry)).natAbs
        < (3 * (rx * rx * (ry * ry))).toNat then 0 else 255⟩

/-- `templateCercle` from the source: black circle band on white.  The
float test `|√(dx²+dy²) - r| < 2.5` is stated exactly over the integers:
`4n < (2r+5)²` and (`2r ≤ 5` or `(2r-5)² < 4n`). -/
def templateCercle (w h : Nat) (r : Int) : GrayImage :=
  ⟨w, h, fun y x =>
    let dx : Int := (x : Int) - ((w / 2 : Nat) : Int)
    let dy : Int := (y : Int) - ((h / 2 : Nat) : Int)
    let n := dx * dx + dy * dy
    if 4 * n < (2 * r + 5) ^ 2 ∧ (2 * r ≤ 5 ∨ (2 * r - 5) ^ 2 < 4 * n) then 0 else 255⟩

/-- `facemodel` from the source. -/
structure facemodel where
  rx : Int
  ry : Int
  lut : RTable

/-- `eyemodel` from the source. -/
structure eyemodel where
  r : Int
  lut : RTable

/-- The running "best face" state of the face-model loop of
`detectfaceeyes` (`bestFacePeak`, `bestFaceX/Y`, `bestRx/Ry`, `bestAccu`). -/
structure FaceBest where
  peak : Nat
  x : Int
  y : Int
  rx : Int
  ry : Int
  accu : AccuImage

/-- The running "best eye" state of the eye-model loop of `detectfaceeyes`
(`bestEyePeak`, `bestR`, `bestEyeAccu`, `bestPics`). -/
structure EyeBest where
  peak : Nat
  r : Int
  accu : AccuImage
  pics : List PicPoint

/-- `faceeyes` from the source: the detection result record. -/
structure faceeyes where
  faceOk : Bool
  faceX : Int
  faceY : Int
  faceRx : Int
  faceRy : Int
  eyeRoiX : Int
  eyeRoiY : Int
  eyeRoiW : Int
  eyeRoiH : Int
  eyesOk : Bool
  ex1 : Int
  ey1 : Int
  ex2 : Int
  ey2 : Int
  eyeR : Int
  dbgGrads : ChampGradient
  dbgFaceAccuOk : Bool
  dbgFaceAccu : AccuImage
  dbgEyeAccuOk : Bool
  dbgEyeAccu : AccuImage

/-- The eye-ROI corners `(zx0, zx1, zy0, zy1)` derived by `detectfaceeyes`
from the face center and scale (`1.2`, `1.1` and `0.15` are the source's
double constants, as exact rationals). -/
def eyeROI (faceX faceY rx ry : Int) (w h : Nat) : Int × Int × Int × Int :=
  (clampInt (faceX - lroundRat (rx * 12) 10) 0 ((w : Int) - 1),
   clampInt (faceX + lroundRat (rx * 12) 10) 0 ((w : Int) - 1),
   clampInt (faceY - lroundRat (ry * 11) 10) 0 ((h : Int) - 1),
   clampInt (faceY - lroundRat (ry * 15) 100) 0 ((h : Int) - 1))

/-- The face-model loop of `detectfaceeyes`: vote per model over the whole
image, refine with radius 6, keep the best peak (`b.ok && b.peak >=
bestFacePeak`, so an equal later peak wins). -/
def faceStage (img : GrayImage) (dbgGrads : ChampGradient)
    (faceModels : List facemodel) (seuilFace : Nat) : FaceBest :=
  faceModels.foldl
    (fun st fm =>
      let A := voter (makeAccu img.w img.h) img dbgGrads fm.lut seuilFace
      let b := barycentreLocalAutourMax A 6
      if b.ok = true ∧ st.peak ≤ b.peak then
        ⟨b.peak, (b.bx.lround : Int), (b.bY.lround : Int), fm.rx, fm.ry, A⟩
      else st)
    (⟨0, 0, 0, 0, 0, makeAccu img.w img.h⟩ : FaceBest)

/-- The eye-model loop of `detectfaceeyes`: vote per radius model inside
the eye zone, take the top-6 peaks (NMS radius `2r`, barycenter radius 6),
keep the model with the highest single peak (a tie goes to the later
model). -/
def eyeStage (zoneYeux : GrayImage) (gradsYeux : ChampGradient)
    (eyeModels : List eyemodel) (seuilEye eyeMinPeak : Nat) : EyeBest :=
  eyeModels.foldl
    (fun st em =>
      let A := voter (makeAccu zoneYeux.w zoneYeux.h) zoneYeux gradsYeux em.lut seuilEye
      let pics := topKpicsAvecBary A 6 (em.r * 2) 6 eyeMinPeak
      if pics.isEmpty then st
      else
        let localPeak := pics.foldl (fun m p => max m p.v) 0
        if st.peak ≤ localPeak then ⟨localPeak, em.r, A, pics⟩ else st)
    (⟨0, 0, makeAccu zoneYeux.w zoneYeux.h, []⟩ : EyeBest)

/-- The tail of `detectfaceeyes` once a face is accepted: derive the eye
ROI, reject a collapsed ROI (`zx1 <= zx0 || zy1 <= zy0`), else build the
sub-image, run the eye stage and pair selection with face-scale-derived
bounds. -/
def eyesPhase (img : GrayImage) (eyeModels : List eyemodel)
    (seuilEye eyeMinPeak : Nat) (fb : FaceBest) (fe1 : faceeyes) : faceeyes :=
  let z := eyeROI fb.x fb.y fb.rx fb.ry img.w img.h
  let zx0 := z.1
  let zx1 := z.2.1
  let zy0 := z.2.2.1
  let zy1 := z.2.2.2
  if zx1 ≤ zx0 ∨ zy1 ≤ zy0 then fe1
  else
    let fe2 := { fe1 with
      eyeRoiX := zx0
      eyeRoiY := zy0
      eyeRoiW := zx1 - zx0 + 1
      eyeRoiH := zy1 - zy0 + 1 }
    let zoneYeux : GrayImage :=
      ⟨(zx1 - zx0 + 1).toNat, (zy1 - zy0 + 1).toNat,
       fun y x => img.p (zy0.toNat + y) (zx0.toNat + x)⟩
    let eb := eyeStage zoneYeux (sobel zoneYeux) eyeModels seuilEye eyeMinPeak
    let fe3 := { fe2 with dbgEyeAccuOk := true, dbgEyeAccu := eb.accu }
    if eb.pics.isEmpty then fe3
    else
      let minDx := max 10 (lroundRat (fb.rx * 55) 100)
      let maxDx := max (minDx + 10) (lroundRat (fb.rx * 160) 100)
      let maxDy := max 10 (lroundRat (fb.ry * 30) 100)
      match choisirPaireYeux eb.pics (fb.x - zx0) (fb.y - zy0) minDx maxDx maxDy with
      | none => fe3
      | some pr =>
        { fe3 with
          eyesOk := true
          eyeR := eb.r
          ex1 := zx0 + (pr.1.bx.lround : Int)
          ey1 := zy0 + (pr.1.bY.lround : Int)
          ex2 := zx0 + (pr.2.bx.lround : Int)
          ey2 := zy0 + (pr.2.bY.lround : Int) }

/-- `detectfaceeyes` from the source: the detection orchestrator.  Face
search over all face models keeping the best barycentered peak; stop with
`faceOk = false` below the acceptance threshold; otherwise run the eye
phase on the ROI above the face center. -/
def detectfaceeyes (img : GrayImage) (faceModels : List facemodel)
    (eyeModels : List eyemodel) (seuilFace seuilEye faceMinScore eyeMinPeak : Nat) :
    faceeyes :=
  let dbgGrads := sobel img
  let fb := faceStage img dbgGrads faceModels seuilFace
  let base : faceeyes :=
    ⟨false, 0, 0, 0, 0, 0, 0, 0, 0, false, 0, 0, 0, 0, 0,
     dbgGrads, true, fb.accu, false, makeAccu 0 0⟩
  if fb.peak < faceMinScore then base
  else
    let fe1 := { base with
      faceOk := true
      faceX := fb.x
      faceY := fb.y
      faceRx := fb.rx
      faceRy := fb.ry }
    eyesPhase img eyeModels seuilEye eyeMinPeak fb fe1

/-- The seven face scale pairs `(rx, ry)` hard-coded in `main`. -/
def mainFaceScales : List (Int × Int) :=
  [(25, 45), (30, 55), (35, 65), (45, 85), (55, 105), (65, 125), (75, 145)]

/-- One face model as `main` builds it: ellipse template of margin 60 and
R-table magnitude band `[50, 220]`. -/
def mkFaceModel (s : Int × Int) : facemodel :=
  { rx := s.1, ry := s.2,
    lut := construireRTableDepuisTemplate
      (templateEllipse (2 * s.1 + 60).toNat (2 * s.2 + 60).toNat s.1 s.2) 50 220 }

/-- The face model list `main` builds. -/
def mainFaceModels : List facemodel := mainFaceScales.map mkFaceModel

/-- The eye radii `main` iterates (`r = 6; r <= 18; r += 2`). -/
def mainEyeRadii : List Int := [6, 8, 10, 12, 14, 16, 18]

/-- One eye model as `main` builds it: circle template of margin 40 and
R-table magnitude band `[40, 220]`. -/
def mkEyeModel (r : Int) : eyemodel :=
  { r := r,
    lut := construireRTableDepuisTemplate
      (templateCercle (2 * r + 40).toNat (2 * r + 40).toNat r) 40 220 }

/-- The eye model list `main` builds. -/
def mainEyeModels : List eyemodel := mainEyeRadii.map mkEyeModel

/-! ### Concrete instances used by the verification -/

/-- A 1x1 accumulator holding a single nonzero cell. -/
def C10accu : AccuImage := ⟨1, 1, fun y x => if y = 0 ∧ x = 0 then 3 else 0⟩

/-- A 2x1 accumulator whose two cells tie at the maximum value 5. -/
def C7accu : AccuImage := ⟨2, 1, fun y x => if y = 0 ∧ (x = 0 ∨ x = 1) then 5 else 0⟩

/-- Pointwise relation between accumulators used for the saturation
invariant: every cell within the 16-bit range stays within it, and every
saturated cell stays saturated. -/
def cellsRel (A B : AccuImage) : Prop :=
  ∀ y x, (A.a y x ≤ 65535 → B.a y x ≤ 65535) ∧ (A.a y x = 65535 → B.a y x = 65535)

/-- A 1x1 image (uniform) and the R-table whose 0-degree bucket votes on the
pixel itself, used to exercise `voter` at threshold 0. -/
def C8rt : RTable := fun a => if a = 0 then [((0 : Int), (0 : Int))] else []

/-- A 1x1 accumulator whose only cell is already saturated. -/
def C4accu : AccuImage := ⟨1, 1, fun _ _ => 65535⟩

/-- The R-table used by the C4 witness: one self-vote in the 0-degree bucket. -/
def C4rt : RTable := fun a => if a = 0 then [((0 : Int), (0 : Int))] else []

/-- A 1x1 accumulator holding one cell of value 7, for the NMS claim. -/
def C2accu : AccuImage := ⟨1, 1, fun y x => if y = 0 ∧ x = 0 then 7 else 0⟩

/-- An eye peak with refined centroid (0.3, 0). -/
def C6p1 : PicPoint := ⟨0, 0, ⟨3, 10⟩, ⟨0, 1⟩, 1⟩

/-- An eye peak with refined centroid (9.8, 0). -/
def C6p2 : PicPoint := ⟨0, 0, ⟨49, 5⟩, ⟨0, 1⟩, 1⟩

/-- A uniform 5x5 image for the eye-ROI claim. -/
def C3img : GrayImage := makeGris 5 5 7

/-- A one-entry R-table: each qualifying pixel votes on itself. -/
def C3lut : RTable := fun a => if a = 0 then [((0 : Int), (0 : Int))] else []

/-- Detection on `C3img` with a tiny custom face model (rx = ry = 1) and eye
model, thresholds 0 and acceptance floors 1: the face is found and the
derived eye ROI is 3x2 — both dimensions below 8 — yet the eye stage votes
in it. -/
def C3out : faceeyes := detectfaceeyes C3img [⟨1, 1, C3lut⟩] [⟨1, C3lut⟩] 0 0 1 1

/-! ### Basic lemmas -/

theorem clampInt_lb (v lo hi : Int) (h : lo ≤ hi) : lo ≤ clampInt v lo hi := by
  unfold clampInt; split_ifs <;> omega

theorem clampInt_ub (v lo hi : Int) (h : lo ≤ hi) : clampInt v lo hi ≤ hi := by
  unfold clampInt; split_ifs <;> omega

theorem clampInt_le_pt (v lo hi p : Int) (h1 : v ≤ p) (h2 : lo ≤ p) (h3 : p ≤ hi) :
    clampInt v lo hi ≤ p := by
  unfold clampInt; split_ifs <;> omega

theorem pt_le_clampInt (v lo hi p : Int) (h1 : p ≤ v) (h2 : lo ≤ p) (h3 : p ≤ hi) :
    p ≤ clampInt v lo hi := by
  unfold clampInt; split_ifs <;> omega

theorem roundSqrt_zero : roundSqrt 0 = 0 := by decide

theorem mem_rowMajor (w h y x : Nat) : (y, x) ∈ rowMajor w h ↔ y < h ∧ x < w := by
  unfold rowMajor
  simp only [List.mem_map, List.mem_range]
  constructor
  · rintro ⟨i, hi, hpair⟩
    have hw : 0 < w := by
      rcases Nat.eq_zero_or_pos w with h0 | h0
      · subst h0; simp at hi
      · exact h0
    simp only [Prod.mk.injEq] at hpair
    obtain ⟨hy, hx⟩ := hpair
    subst hy; subst hx
    exact ⟨Nat.div_lt_of_lt_mul (Nat.mul_comm h w ▸ hi), Nat.mod_lt _ hw⟩
  · rintro ⟨hy, hx⟩
    have hw : 0 < w := by omega
    refine ⟨y * w + x, ?_, ?_⟩
    · calc y * w + x < y * w + w := by omega
        _ = (y + 1) * w := by ring
        _ ≤ h * w := Nat.mul_le_mul_right _ (by omega)
    · have h1 : (y * w + x) / w = y := by
        rw [Nat.mul_comm y w, Nat.mul_add_div hw, Nat.div_eq_of_lt hx, Nat.add_zero]
      have h2 : (y * w + x) % w = x := by
        rw [Nat.mul_comm y w, Nat.mul_add_mod, Nat.mod_eq_of_lt hx]
      rw [h1, h2]

theorem foldl_id {α β : Type} (f : α → β → α) (l : List β) (a : α)
    (h : ∀ x b, b ∈ l → f x b = x) : l.foldl f a = a := by
  induction l generalizing a with
  | nil => rfl
  | cons b t ih =>
    rw [List.foldl_cons, h a b (List.mem_cons_self b t)]
    exact ih a fun x c hc => h x c (List.mem_cons_of_mem _ hc)

theorem foldl_preserves {α β : Type} (R : α → α → Prop)
    (hrefl : ∀ a, R a a) (htrans : ∀ a b c, R a b → R b c → R a c)
    (f : α → β → α) (hf : ∀ a b, R a (f a b)) (l : List β) (a : α) :
    R a (l.foldl f a) := by
  induction l generalizing a with
  | nil => exact hrefl a
  | cons b t ih => exact htrans _ _ _ (hf a b) (ih (f a b))

/-! ### Uniform images: zero gradient everywhere -/

theorem sobelAt_makeGris (w h v : Nat) (y x : Int) :
    sobelAt (makeGris w h v) y x = v := rfl

theorem sobelGx_makeGris (w h v : Nat) (y x : Int) :
    sobelGx (makeGris w h v) y x = 0 := by
  simp [sobelGx, sobelAt_makeGris]

theorem sobelGy_makeGris (w h v : Nat) (y x : Int) :
    sobelGy (makeGris w h v) y x = 0 := by
  simp [sobelGy, sobelAt_makeGris]

theorem sobel_m_makeGris (w h v : Nat) (y x : Nat) :
    (sobel (makeGris w h v)).m y x = 0 := by
  simp [sobel, sobelGx_makeGris, sobelGy_makeGris, roundSqrt_zero]

theorem sobel_a_makeGris (w h v : Nat) (y x : Nat) :
    (sobel (makeGris w h v)).a y x = 0 := by
  simp [sobel, sobelGx_makeGris, sobelGy_makeGris, binDegAtan2]

/-! ### The argmax scan: maximum value, last-argmax position -/

theorem scan_foldl_spec (A : AccuImage) (l : List (Nat × Nat)) (s0 : Nat × Nat × Nat) :
    (∀ yx ∈ l, A.a yx.1 yx.2 ≤ (l.foldl (maxScanStep A) s0).1) ∧
    s0.1 ≤ (l.foldl (maxScanStep A) s0).1 ∧
    (l.foldl (maxScanStep A) s0 = s0 ∨
      ∃ l1 yx l2, l = l1 ++ yx :: l2 ∧
        l.foldl (maxScanStep A) s0 = (A.a yx.1 yx.2, yx.2, yx.1) ∧
        ∀ zw ∈ l2, A.a zw.1 zw.2 < (l.foldl (maxScanStep A) s0).1) := by
  induction l using List.reverseRecOn with
  | nil => exact ⟨by simp, le_refl _, Or.inl rfl⟩
  | append_singleton t yx ih =>
    obtain ⟨hmem, hinit, hdisj⟩ := ih
    rw [List.foldl_append, List.foldl_cons, List.foldl_nil]
    set r := t.foldl (maxScanStep A) s0 with hr
    by_cases hc : r.1 ≤ A.a yx.1 yx.2
    · have hstep : maxScanStep A r yx = (A.a yx.1 yx.2, yx.2, yx.1) := by
        unfold maxScanStep; rw [if_pos hc]
      rw [hstep]
      refine ⟨?_, le_trans hinit hc, Or.inr ⟨t, yx, [], by simp, rfl, by simp⟩⟩
      intro zw hzw
      rcases List.mem_append.mp hzw with hz | hz
      · exact le_trans (hmem zw hz) hc
      · simp only [List.mem_singleton] at hz
        subst hz; exact le_refl _
    · have hstep : maxScanStep A r yx = r := by
        unfold maxScanStep; rw [if_neg hc]
      rw [hstep]
      push_neg at hc
      refine ⟨?_, hinit, ?_⟩
      · intro zw hzw
        rcases List.mem_append.mp hzw with hz | hz
        · exact hmem zw hz
        · simp only [List.mem_singleton] at hz
          subst hz; exact le_of_lt hc
      · rcases hdisj with heq | ⟨l1, w1, l2, hsplit, hval, hafter⟩
        · exact Or.inl heq
        · refine Or.inr ⟨l1, w1, l2 ++ [yx], by rw [hsplit]; simp, hval, ?_⟩
          intro zw hzw
          rcases List.mem_append.mp hzw with hz | hz
          · exact hafter zw hz
          · simp only [List.mem_singleton] at hz
            subst hz; exact hc

theorem pairwise_rowMajor (w h : Nat) :
    (rowMajor w h).Pairwise (fun a b => a.1 * w + a.2 < b.1 * w + b.2) := by
  unfold rowMajor
  rw [List.pairwise_map]
  have := List.pairwise_lt_range (h * w)
  refine this.imp_of_mem ?_
  intro i j hi hj hij
  dsimp only
  rcases Nat.eq_zero_or_pos w with h0 | h0
  · subst h0; simp at hi
  · have d1 : w * (i / w) + i % w = i := Nat.div_add_mod i w
    have d2 : w * (j / w) + j % w = j := Nat.div_add_mod j w
    have e1 : i / w * w = w * (i / w) := Nat.mul_comm _ _
    have e2 : j / w * w = w * (j / w) := Nat.mul_comm _ _
    omega

theorem mem_after_of_split (w : Nat) (l l1 l2 : List (Nat × Nat)) (x z : Nat × Nat)
    (hp : l.Pairwise (fun a b => a.1 * w + a.2 < b.1 * w + b.2))
    (hsplit : l = l1 ++ x :: l2) (hz : z ∈ l)
    (hR : x.1 * w + x.2 < z.1 * w + z.2) : z ∈ l2 := by
  subst hsplit
  rw [List.pairwise_append] at hp
  obtain ⟨hp1, hp2, hcross⟩ := hp
  rcases List.mem_append.mp hz with hz1 | hz2
  · have := hcross z hz1 x (List.mem_cons_self x l2)
    omega
  · rcases List.mem_cons.mp hz2 with hzx | hzl2
    · subst hzx; omega
    · exact hzl2

theorem scanMax_bounds (A : AccuImage) (y x : Nat) (hy : y < A.h) (hx : x < A.w) :
    A.a y x ≤ (scanMax A).1 := by
  unfold scanMax
  exact (scan_foldl_spec A (rowMajor A.w A.h) (0, 0, 0)).1 (y, x)
    ((mem_rowMajor _ _ _ _).mpr ⟨hy, hx⟩)

theorem scanMax_argmax (A : AccuImage) (hp : 0 < (scanMax A).1) :
    (scanMax A).2.2 < A.h ∧ (scanMax A).2.1 < A.w ∧
    A.a (scanMax A).2.2 (scanMax A).2.1 = (scanMax A).1 ∧
    ∀ y x, y < A.h → x < A.w →
      ((scanMax A).2.2 < y ∨ ((scanMax A).2.2 = y ∧ (scanMax A).2.1 < x)) →
      A.a y x < (scanMax A).1 := by
  obtain ⟨hmem, hinit, hdisj⟩ := scan_foldl_spec A (rowMajor A.w A.h) (0, 0, 0)
  rcases hdisj with heq | ⟨l1, yx, l2, hsplit, hval, hafter⟩
  · unfold scanMax at hp
    rw [heq] at hp
    exact absurd hp (by norm_num)
  · have hyx_mem : yx ∈ rowMajor A.w A.h := by
      rw [hsplit]
      exact List.mem_append_right _ (List.mem_cons_self _ _)
    obtain ⟨hyh, hxw⟩ := (mem_rowMajor A.w A.h yx.1 yx.2).mp hyx_mem
    have hsm : scanMax A = (A.a yx.1 yx.2, yx.2, yx.1) := hval
    rw [hsm]
    dsimp only
    refine ⟨hyh, hxw, rfl, ?_⟩
    intro y x hy hx hlater
    have hidx : yx.1 * A.w + yx.2 < y * A.w + x := by
      rcases hlater with h1 | ⟨h1, h2⟩
      · have hmul : (yx.1 + 1) * A.w ≤ y * A.w := Nat.mul_le_mul_right _ (by omega)
        have e : (yx.1 + 1) * A.w = yx.1 * A.w + A.w := by ring
        omega
      · have e : yx.1 * A.w = y * A.w := by rw [h1]
        omega
    have hz_mem : (y, x) ∈ rowMajor A.w A.h := (mem_rowMajor _ _ _ _).mpr ⟨hy, hx⟩
    have hz2 : (y, x) ∈ l2 :=
      mem_after_of_split A.w _ l1 l2 yx (y, x) (pairwise_rowMajor A.w A.h) hsplit hz_mem hidx
    have hlt := hafter (y, x) hz2
    rw [hval] at hlt
    exact hlt

theorem scanMax_peak_zero (A : AccuImage) :
    (scanMax A).1 = 0 ↔ ∀ y x, y < A.h → x < A.w → A.a y x = 0 := by
  constructor
  · intro h0 y x hy hx
    have := scanMax_bounds A y x hy hx
    omega
  · intro hall
    obtain ⟨hmem, hinit, hdisj⟩ := scan_foldl_spec A (rowMajor A.w A.h) (0, 0, 0)
    rcases hdisj with heq | ⟨l1, yx, l2, hsplit, hval, hafter⟩
    · unfold scanMax; rw [heq]
    · have hyx_mem : yx ∈ rowMajor A.w A.h := by
        rw [hsplit]
        exact List.mem_append_right _ (List.mem_cons_self _ _)
      obtain ⟨hyh, hxw⟩ := (mem_rowMajor A.w A.h yx.1 yx.2).mp hyx_mem
      unfold scanMax
      rw [hval]
      exact hall yx.1 yx.2 hyh hxw

theorem le_windowSum (A : AccuImage) (x0 x1 y0 y1 px py : Nat)
    (hx0 : x0 ≤ px) (hx1 : px ≤ x1) (hy0 : y0 ≤ py) (hy1 : py ≤ y1) :
    A.a py px ≤ windowSum A x0 x1 y0 y1 := by
  unfold windowSum
  calc A.a py px ≤ ∑ x ∈ Finset.Icc x0 x1, A.a py x :=
        Finset.single_le_sum (fun i _ => Nat.zero_le _) (Finset.mem_Icc.mpr ⟨hx0, hx1⟩)
    _ ≤ ∑ y ∈ Finset.Icc y0 y1, ∑ x ∈ Finset.Icc x0 x1, A.a y x :=
        @Finset.single_le_sum ℕ ℕ _ (fun y => ∑ x ∈ Finset.Icc x0 x1, A.a y x)
          (Finset.Icc y0 y1) (fun i _ => Nat.zero_le _) py (Finset.mem_Icc.mpr ⟨hy0, hy1⟩)

/-! ### Global-max-with-barycenter: claims C7 and C10 -/

theorem bary_peak_eq (A : AccuImage) (radius : Int) :
    (barycentreLocalAutourMax A radius).peak = (scanMax A).1 := by
  unfold barycentreLocalAutourMax
  dsimp only
  split_ifs with h1 h2 <;> simp [h1]

theorem bary_ok_of_nonzero (A : AccuImage) (radius : Int) (hr : 0 ≤ radius)
    (hpk : (scanMax A).1 ≠ 0) :
    (barycentreLocalAutourMax A radius).ok = true := by
  obtain ⟨hyh, hxw, hval, _⟩ := scanMax_argmax A (Nat.pos_of_ne_zero hpk)
  have hx0 : (clampInt (((scanMax A).2.1 : Int) - radius) 0 ((A.w : Int) - 1)).toNat
      ≤ (scanMax A).2.1 := by
    have := clampInt_le_pt (((scanMax A).2.1 : Int) - radius) 0 ((A.w : Int) - 1)
      ((scanMax A).2.1 : Int) (by omega) (by omega) (by omega)
    omega
  have hx1 : (scanMax A).2.1
      ≤ (clampInt (((scanMax A).2.1 : Int) + radius) 0 ((A.w : Int) - 1)).toNat := by
    have := pt_le_clampInt (((scanMax A).2.1 : Int) + radius) 0 ((A.w : Int) - 1)
      ((scanMax A).2.1 : Int) (by omega) (by omega) (by omega)
    omega
  have hy0 : (clampInt (((scanMax A).2.2 : Int) - radius) 0 ((A.h : Int) - 1)).toNat
      ≤ (scanMax A).2.2 := by
    have := clampInt_le_pt (((scanMax A).2.2 : Int) - radius) 0 ((A.h : Int) - 1)
      ((scanMax A).2.2 : Int) (by omega) (by omega) (by omega)
    omega
  have hy1 : (scanMax A).2.2
      ≤ (clampInt (((scanMax A).2.2 : Int) + radius) 0 ((A.h : Int) - 1)).toNat := by
    have := pt_le_clampInt (((scanMax A).2.2 : Int) + radius) 0 ((A.h : Int) - 1)
      ((scanMax A).2.2 : Int) (by omega) (by omega) (by omega)
    omega
  have hsum := le_windowSum A _ _ _ _ (scanMax A).2.1 (scanMax A).2.2 hx0 hx1 hy0 hy1
  rw [hval] at hsum
  unfold barycentreLocalAutourMax
  dsimp only
  rw [if_neg hpk, if_neg (by omega)]

theorem bary_ok_false_of_zero (A : AccuImage) (radius : Int)
    (hpk : (scanMax A).1 = 0) :
    (barycentreLocalAutourMax A radius).ok = false := by
  unfold barycentreLocalAutourMax
  dsimp only
  rw [if_pos hpk]

/-- Claim C10: for every accumulator and refinement radius at least 0, if some
cell is nonzero then global-max-with-barycenter succeeds (the centroid window
always contains the maximal cell, so the window mass is positive and the
zero-sum failure branch is unreachable); it fails exactly when every cell is
zero. -/
theorem C10_bary_ok_iff_nonzero (A : AccuImage) (radius : Int) (hr : 0 ≤ radius) :
    (barycentreLocalAutourMax A radius).ok = true ↔
      ∃ y x, y < A.h ∧ x < A.w ∧ A.a y x ≠ 0 := by
  constructor
  · intro hok
    by_cases hz : (scanMax A).1 = 0
    · rw [bary_ok_false_of_zero A radius hz] at hok
      cases hok
    · obtain ⟨hyh, hxw, hval, _⟩ := scanMax_argmax A (Nat.pos_of_ne_zero hz)
      exact ⟨_, _, hyh, hxw, by rw [hval]; exact hz⟩
  · rintro ⟨y, x, hy, hx, hnz⟩
    have hpk : (scanMax A).1 ≠ 0 := fun h0 =>
      hnz ((scanMax_peak_zero A).mp h0 y x hy hx)
    exact bary_ok_of_nonzero A radius hr hpk

/-- Witness for C10 at a concrete accumulator with one nonzero cell. -/
theorem C10_bary_ok_iff_nonzero_witness :
    (barycentreLocalAutourMax C10accu 0).ok = true ↔
      ∃ y x, y < C10accu.h ∧ x < C10accu.w ∧ C10accu.a y x ≠ 0 :=
  C10_bary_ok_iff_nonzero C10accu 0 (by omega)

/-- Claim C7 (amended): the extractor reports the true maximum cell value;
when that maximum is positive, the argmax position is the last maximal cell
in row-major scan order (every strictly later in-bounds cell is strictly
below the maximum; earlier cells may tie), and when the maximum is zero it
reports no peak.  The tie goes to the last cell, not the first, because the
scan updates on `v >= peak`. -/
theorem C7_bary_max_last_tie (A : AccuImage) (radius : Int) :
    (barycentreLocalAutourMax A radius).peak = (scanMax A).1 ∧
    (∀ y x, y < A.h → x < A.w → A.a y x ≤ (scanMax A).1) ∧
    (0 < (scanMax A).1 →
      A.a (scanMax A).2.2 (scanMax A).2.1 = (scanMax A).1 ∧
      ∀ y x, y < A.h → x < A.w →
        ((scanMax A).2.2 < y ∨ ((scanMax A).2.2 = y ∧ (scanMax A).2.1 < x)) →
        A.a y x < (scanMax A).1) ∧
    ((scanMax A).1 = 0 → (barycentreLocalAutourMax A radius).ok = false) := by
  refine ⟨bary_peak_eq A radius, fun y x hy hx => scanMax_bounds A y x hy hx, ?_, ?_⟩
  · intro hp
    obtain ⟨_, _, hval, hlater⟩ := scanMax_argmax A hp
    exact ⟨hval, hlater⟩
  · exact bary_ok_false_of_zero A radius

/-- Counterexample to C7 as stated: in a 2-cell accumulator whose cells tie
at 5, first-encountered tie resolution would put the argmax at x = 0 and
(with refinement radius 0) a centroid of 0; the code puts the argmax at the
last maximal cell x = 1, and the centroid is exactly 1. -/
theorem C7_cex_last_not_first :
    C7accu.a 0 0 = C7accu.a 0 1 ∧
    scanMax C7accu = (5, 1, 0) ∧
    (barycentreLocalAutourMax C7accu 0).bx = ⟨5, 5⟩ := by
  refine ⟨rfl, by decide, by decide⟩

theorem cellsRel_refl (A : AccuImage) : cellsRel A A := fun _ _ => ⟨id, id⟩

theorem cellsRel_trans (A B C : AccuImage) (h1 : cellsRel A B) (h2 : cellsRel B C) :
    cellsRel A C := fun y x =>
  ⟨fun h => (h2 y x).1 ((h1 y x).1 h), fun h => (h2 y x).2 ((h1 y x).2 h)⟩

theorem bumpCell_le (c : Nat) (h : c ≤ 65535) : bumpCell c ≤ 65535 := by
  unfold bumpCell; split_ifs <;> omega

theorem bumpCell_sat : bumpCell 65535 = 65535 := by decide

theorem voteOffsets_cellsRel (A : AccuImage) (x y : Nat) (vec : List (Int × Int)) :
    cellsRel A (voteOffsets A x y vec) := by
  unfold voteOffsets
  apply foldl_preserves cellsRel cellsRel_refl cellsRel_trans
  intro B d
  dsimp only
  split_ifs with hc
  · exact cellsRel_refl B
  · intro y2 x2
    dsimp only
    split_ifs with he
    · exact ⟨bumpCell_le _, fun h => by rw [h]; exact bumpCell_sat⟩
    · exact ⟨id, id⟩

theorem voterPixel_cellsRel (grads : ChampGradient) (rt : RTable) (s : Nat)
    (A : AccuImage) (yx : Nat × Nat) : cellsRel A (voterPixel grads rt s A yx) := by
  unfold voterPixel
  dsimp only
  split_ifs with h1 h2
  · exact cellsRel_refl A
  · exact cellsRel_refl A
  · exact voteOffsets_cellsRel A yx.2 yx.1 _

theorem voter_cellsRel (A : AccuImage) (img : GrayImage) (grads : ChampGradient)
    (rt : RTable) (s : Nat) : cellsRel A (voter A img grads rt s) := by
  unfold voter
  exact foldl_preserves cellsRel cellsRel_refl cellsRel_trans _
    (fun B yx => voterPixel_cellsRel grads rt s B yx) _ A

/-- Claim C4: for every vote sequence the Vote Accumulator drives into a
cell, the stored 16-bit counter never exceeds 65535 and never wraps: a
saturated cell is left unchanged by further votes. -/
theorem C4_voter_saturates (A : AccuImage) (img : GrayImage) (grads : ChampGradient)
    (rt : RTable) (s : Nat) (hinit : ∀ y x, A.a y x ≤ 65535) (y x : Nat) :
    (voter A img grads rt s).a y x ≤ 65535 ∧
    (A.a y x = 65535 → (voter A img grads rt s).a y x = 65535) :=
  ⟨(voter_cellsRel A img grads rt s y x).1 (hinit y x),
   (voter_cellsRel A img grads rt s y x).2⟩

/-- Witness for C4: a saturated 1x1 cell receives one more vote (the pixel
qualifies at threshold 0 and votes on itself) and stays at 65535. -/
theorem C4_voter_saturates_witness :
    (voter C4accu (makeGris 1 1 0) (sobel (makeGris 1 1 0)) C4rt 0).a 0 0 ≤ 65535 ∧
    (C4accu.a 0 0 = 65535 →
      (voter C4accu (makeGris 1 1 0) (sobel (makeGris 1 1 0)) C4rt 0).a 0 0 = 65535) :=
  C4_voter_saturates C4accu (makeGris 1 1 0) (sobel (makeGris 1 1 0)) C4rt 0
    (fun _ _ => by simp [C4accu]) 0 0

/-- Claim C8 (amended): a pixel whose Sobel gradient is zero in both axes
casts no votes whenever the edge-magnitude threshold is positive (its
magnitude 0 falls below the gate); with a zero threshold such a pixel is not
excluded, see the counterexample. -/
theorem C8_zero_gradient_no_votes (img : GrayImage) (rt : RTable) (s : Nat)
    (A : AccuImage) (y x : Nat) (hs : 0 < s)
    (hgx : sobelGx img y x = 0) (hgy : sobelGy img y x = 0) :
    voterPixel (sobel img) rt s A (y, x) = A := by
  unfold voterPixel
  dsimp only
  have hm : (sobel img).m y x = 0 := by
    simp [sobel, hgx, hgy, roundSqrt_zero]
  rw [hm, if_pos hs]

/-- Witness for C8: the center pixel of a uniform image has zero gradient and
leaves the accumulator untouched at threshold 1. -/
theorem C8_zero_gradient_no_votes_witness :
    voterPixel (sobel (makeGris 2 2 3)) (fun _ => []) 1 (makeAccu 2 2) (0, 0) =
      makeAccu 2 2 :=
  C8_zero_gradient_no_votes (makeGris 2 2 3) (fun _ => []) 1 (makeAccu 2 2) 0 0
    (by omega) (by decide) (by decide)

/-- Counterexample to C8 as stated ("including a threshold of zero"): at
threshold 0 a pixel with zero Sobel gradient in both axes passes the gate
(0 >= 0), falls into the 0-degree bucket, and does vote: the accumulator
cell goes from 0 to 1. -/
theorem C8_cex_threshold_zero :
    sobelGx (makeGris 1 1 0) 0 0 = 0 ∧ sobelGy (makeGris 1 1 0) 0 0 = 0 ∧
    (voter (makeAccu 1 1) (makeGris 1 1 0) (sobel (makeGris 1 1 0)) C8rt 0).a 0 0 = 1 := by
  refine ⟨by decide, by decide, by decide⟩

/-! ### Uniform image: face stage finds nothing, eye stage never runs -/

theorem voter_uniform_skip (w h v : Nat) (A : AccuImage) (rt : RTable) (s : Nat)
    (hs : 0 < s) :
    voter A (makeGris w h v) (sobel (makeGris w h v)) rt s = A := by
  unfold voter
  apply foldl_id
  intro B yx _
  unfold voterPixel
  dsimp only
  rw [sobel_m_makeGris, if_pos hs]

theorem scanMax_makeAccu (w h : Nat) : (scanMax (makeAccu w h)).1 = 0 :=
  (scanMax_peak_zero (makeAccu w h)).mpr fun _ _ _ _ => rfl

theorem faceStage_uniform (w h v : Nat) (fMs : List facemodel) (sF : Nat)
    (hs : 0 < sF) :
    faceStage (makeGris w h v) (sobel (makeGris w h v)) fMs sF =
      ⟨0, 0, 0, 0, 0, makeAccu w h⟩ := by
  unfold faceStage
  apply foldl_id
  intro st fm _
  dsimp only
  rw [voter_uniform_skip w h v _ _ sF hs,
    bary_ok_false_of_zero _ 6 (scanMax_makeAccu _ _)]
  simp

/-- Claim C5: on a uniform (constant-intensity) image with positive edge
thresholds and a positive face-acceptance threshold, detection reports no
face, the eye stage is skipped entirely (its debug accumulator flag stays
false: the ROI is never built and no eye voting occurs), and no eyes are
reported. -/
theorem C5_uniform_no_face_no_eyes (w h v : Nat) (fMs : List facemodel)
    (eMs : List eyemodel) (sF sE fMin eMin : Nat)
    (hsF : 0 < sF) (hsE : 0 < sE) (hfMin : 0 < fMin) :
    (detectfaceeyes (makeGris w h v) fMs eMs sF sE fMin eMin).faceOk = false ∧
    (detectfaceeyes (makeGris w h v) fMs eMs sF sE fMin eMin).eyesOk = false ∧
    (detectfaceeyes (makeGris w h v) fMs eMs sF sE fMin eMin).dbgEyeAccuOk = false := by
  unfold detectfaceeyes
  dsimp only
  rw [faceStage_uniform w h v fMs sF hsF]
  dsimp only
  rw [if_pos hfMin]
  exact ⟨rfl, rfl, rfl⟩

/-- Witness for C5 at a concrete uniform image and thresholds. -/
theorem C5_uniform_no_face_no_eyes_witness :
    (detectfaceeyes (makeGris 2 2 5) [] [] 1 1 1 0).faceOk = false ∧
    (detectfaceeyes (makeGris 2 2 5) [] [] 1 1 1 0).eyesOk = false ∧
    (detectfaceeyes (makeGris 2 2 5) [] [] 1 1 1 0).dbgEyeAccuOk = false :=
  C5_uniform_no_face_no_eyes 2 2 5 [] [] 1 1 1 0 (by omega) (by omega) (by omega)

/-! ### The R-table builder: claims C1 and C9 -/

theorem rtable_foldl_char (g : ChampGradient) (cx cy : Nat) (mMin mMax : Nat)
    (l : List (Nat × Nat)) (rt : RTable) (a : Nat) :
    (l.foldl
      (fun rt yx =>
        if g.m yx.1 yx.2 < mMin ∨ g.m yx.1 yx.2 > mMax then rt
        else fun b =>
          if b = g.a yx.1 yx.2 then rt b ++ [((cx : Int) - yx.2, (cy : Int) - yx.1)]
          else rt b)
      rt) a =
    rt a ++ ((l.filter fun yx =>
        decide (¬(g.m yx.1 yx.2 < mMin ∨ g.m yx.1 yx.2 > mMax) ∧
          g.a yx.1 yx.2 = a)).map
      fun yx => ((cx : Int) - yx.2, (cy : Int) - yx.1)) := by
  induction l generalizing rt with
  | nil => simp
  | cons yx t ih =>
    rw [List.foldl_cons]
    by_cases hskip : g.m yx.1 yx.2 < mMin ∨ g.m yx.1 yx.2 > mMax
    · rw [if_pos hskip]
      rw [ih]
      have hp : (decide (¬(g.m yx.1 yx.2 < mMin ∨ g.m yx.1 yx.2 > mMax) ∧
          g.a yx.1 yx.2 = a)) = false := by
        simp only [decide_eq_false_iff_not]
        tauto
      rw [List.filter_cons, hp]
      simp
    · rw [if_neg hskip]
      by_cases ha : a = g.a yx.1 yx.2
      · rw [ih, if_pos ha]
        have hp : (decide (¬(g.m yx.1 yx.2 < mMin ∨ g.m yx.1 yx.2 > mMax) ∧
            g.a yx.1 yx.2 = a)) = true := by
          simp only [decide_eq_true_eq]
          exact ⟨hskip, ha.symm⟩
        rw [List.filter_cons, hp]
        simp
      · rw [ih, if_neg ha]
        have hp : (decide (¬(g.m yx.1 yx.2 < mMin ∨ g.m yx.1 yx.2 > mMax) ∧
            g.a yx.1 yx.2 = a)) = false := by
          simp only [decide_eq_false_iff_not]
          intro hand
          exact ha hand.2.symm
        rw [List.filter_cons, hp]
        simp

theorem construire_bucket_char (templ : GrayImage) (mMin mMax a : Nat) :
    construireRTableDepuisTemplate templ mMin mMax a =
      ((rowMajor templ.w templ.h).filter fun yx =>
        decide (¬((sobel templ).m yx.1 yx.2 < mMin ∨ (sobel templ).m yx.1 yx.2 > mMax) ∧
          (sobel templ).a yx.1 yx.2 = a)).map
        fun yx => ((↑(templ.w / 2) : Int) - yx.2, (↑(templ.h / 2) : Int) - yx.1) := by
  unfold construireRTableDepuisTemplate
  dsimp only
  have h := rtable_foldl_char (sobel templ) (templ.w / 2) (templ.h / 2) mMin mMax
      (rowMajor templ.w templ.h) (fun _ => []) a
  simpa using h

/-- Claim C1 (amended): the R-table builder has no bucket capacity cap and
drops nothing: a bucket's length equals the number of template pixels whose
magnitude lies in the band and whose angle bin is that bucket. -/
theorem C1_bucket_unbounded (templ : GrayImage) (mMin mMax a : Nat) :
    (construireRTableDepuisTemplate templ mMin mMax a).length =
      ((rowMajor templ.w templ.h).countP fun yx =>
        decide (¬((sobel templ).m yx.1 yx.2 < mMin ∨ (sobel templ).m yx.1 yx.2 > mMax) ∧
          (sobel templ).a yx.1 yx.2 = a)) := by
  rw [construire_bucket_char, List.length_map]
  exact (List.countP_eq_length_filter _ _).symm

/-- Counterexample to C1 as stated: no cap bounds bucket length.  For every
candidate cap, the uniform (cap+1)x1 template with magnitude band [0, 0] puts
one offset per pixel into bucket 0 (every pixel has magnitude 0 and angle bin
0), so the bucket holds cap+1 offsets. -/
theorem C1_cex_no_cap :
    ¬ ∃ cap : Nat, ∀ (templ : GrayImage) (mMin mMax a : Nat),
      (construireRTableDepuisTemplate templ mMin mMax a).length ≤ cap := by
  rintro ⟨cap, hcap⟩
  have hchar := construire_bucket_char (makeGris (cap + 1) 1 0) 0 0 0
  have hfilter : ((rowMajor (makeGris (cap + 1) 1 0).w (makeGris (cap + 1) 1 0).h).filter
      fun yx => decide (¬((sobel (makeGris (cap + 1) 1 0)).m yx.1 yx.2 < 0 ∨
        (sobel (makeGris (cap + 1) 1 0)).m yx.1 yx.2 > 0) ∧
        (sobel (makeGris (cap + 1) 1 0)).a yx.1 yx.2 = 0)) =
      rowMajor (makeGris (cap + 1) 1 0).w (makeGris (cap + 1) 1 0).h := by
    apply List.filter_eq_self.mpr
    intro yx _
    simp [sobel_m_makeGris, sobel_a_makeGris]
  have hlen : (construireRTableDepuisTemplate (makeGris (cap + 1) 1 0) 0 0 0).length
      = cap + 1 := by
    rw [hchar, List.length_map, hfilter]
    show (rowMajor (cap + 1) 1).length = cap + 1
    unfold rowMajor
    rw [List.length_map, List.length_range]
    omega
  have := hcap (makeGris (cap + 1) 1 0) 0 0 0
  omega

/-- Claim C9: the R-table builder records the offset of a template pixel if
and only if its Sobel magnitude lies in the closed band [minMag, maxMag] (and
it lands in the pixel's angle bucket); and the models `main` builds use the
bands [50, 220] for the face ellipses and [40, 220] for the eye circles. -/
theorem C9_band_and_main_models :
    (∀ (templ : GrayImage) (mMin mMax y x : Nat), y < templ.h → x < templ.w →
      ∀ a : Nat,
        (((↑(templ.w / 2) : Int) - x, (↑(templ.h / 2) : Int) - y) ∈
            construireRTableDepuisTemplate templ mMin mMax a ↔
          mMin ≤ (sobel templ).m y x ∧ (sobel templ).m y x ≤ mMax ∧
            (sobel templ).a y x = a)) ∧
    (∀ fm ∈ mainFaceModels, fm.lut = construireRTableDepuisTemplate
      (templateEllipse (2 * fm.rx + 60).toNat (2 * fm.ry + 60).toNat fm.rx fm.ry) 50 220) ∧
    (∀ em ∈ mainEyeModels, em.lut = construireRTableDepuisTemplate
      (templateCercle (2 * em.r + 40).toNat (2 * em.r + 40).toNat em.r) 40 220) := by
  refine ⟨?_, ?_, ?_⟩
  · intro templ mMin mMax y x hy hx a
    rw [construire_bucket_char]
    simp only [List.mem_map, List.mem_filter]
    constructor
    · rintro ⟨yx, ⟨hmem, hp⟩, heq⟩
      simp only [Prod.mk.injEq] at heq
      obtain ⟨hex, hey⟩ := heq
      have hx2 : yx.2 = x := by omega
      have hy2 : yx.1 = y := by omega
      rw [decide_eq_true_eq] at hp
      rw [hx2, hy2] at hp
      obtain ⟨hband, hang⟩ := hp
      exact ⟨by omega, by omega, hang⟩
    · rintro ⟨h1, h2, h3⟩
      refine ⟨(y, x), ⟨(mem_rowMajor _ _ _ _).mpr ⟨hy, hx⟩, ?_⟩, rfl⟩
      rw [decide_eq_true_eq]
      dsimp only
      exact ⟨by omega, h3⟩
  · intro fm hfm
    simp only [mainFaceModels, List.mem_map] at hfm
    obtain ⟨s, hs, rfl⟩ := hfm
    rfl
  · intro em hem
    simp only [mainEyeModels, List.mem_map] at hem
    obtain ⟨r, hr, rfl⟩ := hem
    rfl

/-! ### Top-K with NMS: claim C2 -/

theorem topKboucle_pairwise (A : AccuImage) (k nmsRadius baryRadius : Int)
    (cs : List Cand) (out : List PicPoint)
    (hout : out.Pairwise fun p q =>
      nmsRadius * nmsRadius <
        ((q.x : Int) - p.x) * ((q.x : Int) - p.x) +
          ((q.y : Int) - p.y) * ((q.y : Int) - p.y)) :
    (topKboucle A k nmsRadius baryRadius cs out).Pairwise fun p q =>
      nmsRadius * nmsRadius <
        ((q.x : Int) - p.x) * ((q.x : Int) - p.x) +
          ((q.y : Int) - p.y) * ((q.y : Int) - p.y) := by
  induction cs generalizing out with
  | nil => exact hout
  | cons c cs ih =>
    rw [topKboucle]
    dsimp only
    split_ifs with h1 h2
    · exact ih out hout
    · -- accepted and the loop stops at k peaks
      apply List.pairwise_append.mpr
      refine ⟨hout, List.pairwise_singleton _ _, ?_⟩
      intro p hp q hq
      simp only [List.mem_singleton] at hq
      subst hq
      have := (List.any_eq_false.mp (Bool.not_eq_true _ ▸ h1)) p hp
      simp only [decide_eq_true_eq] at this
      push_neg at this
      simpa using this
    · -- accepted, loop continues
      apply ih
      apply List.pairwise_append.mpr
      refine ⟨hout, List.pairwise_singleton _ _, ?_⟩
      intro p hp q hq
      simp only [List.mem_singleton] at hq
      subst hq
      have := (List.any_eq_false.mp (Bool.not_eq_true _ ▸ h1)) p hp
      simp only [decide_eq_true_eq] at this
      push_neg at this
      simpa using this

/-- Claim C2 (amended): top-K extraction never modifies the accumulator (the
source takes it by const reference and returns only the peak list);
suppression is implemented by skipping candidates, and it guarantees that
the raw positions of any two accepted peaks are strictly more than the
suppression radius apart: for an earlier accepted p and a later accepted q,
r^2 < (q.x - p.x)^2 + (q.y - p.y)^2. -/
theorem C2_topK_separation (A : AccuImage) (k nmsRadius baryRadius : Int)
    (minVal : Nat) :
    (topKpicsAvecBary A k nmsRadius baryRadius minVal).Pairwise fun p q =>
      nmsRadius * nmsRadius <
        ((q.x : Int) - p.x) * ((q.x : Int) - p.x) +
          ((q.y : Int) - p.y) * ((q.y : Int) - p.y) := by
  unfold topKpicsAvecBary
  exact topKboucle_pairwise A k nmsRadius baryRadius _ [] List.Pairwise.nil

/-- Counterexample to C2 as stated: the extraction accepts the peak at raw
position (0, 0), but no accumulator cell is ever zeroed — the function takes
the accumulator by const reference, so after extraction the cell at the
accepted position still holds its original value 7, not 0. -/
theorem C2_cex_no_zeroing :
    ((topKpicsAvecBary C2accu 1 1 0 1).map fun p => (p.x, p.y, p.v)) = [(0, 0, 7)] ∧
    C2accu.a 0 0 = 7 := ⟨by decide, rfl⟩

/-! ### Pair selection: claim C6 -/

theorem ordonnerPaire_fle (p q : PicPoint) :
    (ordonnerPaire p q).1.bx.fle (ordonnerPaire p q).2.bx := by
  unfold ordonnerPaire
  split_ifs with h
  · exact h
  · dsimp only
    unfold Frac.fle at h ⊢
    omega

theorem choisirStep_cases (cy dmin dmax dy : Int) (st : Option (Nat × PicPoint × PicPoint))
    (pr : PicPoint × PicPoint) :
    (paireEligible cy dmin dmax dy pr.1 pr.2 = false ∧
      choisirStep cy dmin dmax dy st pr = st) ∨
    (paireEligible cy dmin dmax dy pr.1 pr.2 = true ∧
      choisirStep cy dmin dmax dy st pr =
        some ((ordonnerPaire pr.1 pr.2).1.v + (ordonnerPaire pr.1 pr.2).2.v,
          (ordonnerPaire pr.1 pr.2).1, (ordonnerPaire pr.1 pr.2).2) ∧
      (∀ s, st = some s →
        s.1 ≤ (ordonnerPaire pr.1 pr.2).1.v + (ordonnerPaire pr.1 pr.2).2.v)) ∨
    (paireEligible cy dmin dmax dy pr.1 pr.2 = true ∧
      choisirStep cy dmin dmax dy st pr = st ∧
      ∃ s, st = some s ∧
        (ordonnerPaire pr.1 pr.2).1.v + (ordonnerPaire pr.1 pr.2).2.v ≤ s.1) := by
  unfold choisirStep
  by_cases he : paireEligible cy dmin dmax dy pr.1 pr.2 = true
  · rw [if_pos he]
    dsimp only
    rcases st with _ | s
    · exact Or.inr (Or.inl ⟨he, rfl, by simp⟩)
    · dsimp only
      by_cases hlt : s.1 < (ordonnerPaire pr.1 pr.2).1.v + (ordonnerPaire pr.1 pr.2).2.v
      · rw [if_pos hlt]
        refine Or.inr (Or.inl ⟨he, rfl, ?_⟩)
        rintro s2 hs2
        injection hs2 with hs2
        subst hs2
        omega
      · rw [if_neg hlt]
        exact Or.inr (Or.inr ⟨he, rfl, s, rfl, by omega⟩)
  · rw [if_neg he]
    exact Or.inl ⟨Bool.not_eq_true _ ▸ he, rfl⟩

theorem choisir_foldl_spec (cy dmin dmax dy : Int) (l : List (PicPoint × PicPoint)) :
    ∀ st : Option (Nat × PicPoint × PicPoint),
    (l.foldl (choisirStep cy dmin dmax dy) st = none ↔
      st = none ∧ ∀ pr ∈ l, paireEligible cy dmin dmax dy pr.1 pr.2 = false) ∧
    (∀ b L R, l.foldl (choisirStep cy dmin dmax dy) st = some (b, L, R) →
      ((st = some (b, L, R)) ∨
        ∃ pr ∈ l, paireEligible cy dmin dmax dy pr.1 pr.2 = true ∧
          (L, R) = ordonnerPaire pr.1 pr.2 ∧ b = L.v + R.v) ∧
      (∀ pr ∈ l, paireEligible cy dmin dmax dy pr.1 pr.2 = true →
        (ordonnerPaire pr.1 pr.2).1.v + (ordonnerPaire pr.1 pr.2).2.v ≤ b) ∧
      (∀ b0 L0 R0, st = some (b0, L0, R0) → b0 ≤ b)) := by
  induction l with
  | nil =>
    intro st
    refine ⟨by simp, ?_⟩
    intro b L R hr
    refine ⟨Or.inl hr, by simp, ?_⟩
    intro b0 L0 R0 h0
    rw [h0] at hr
    simp only [List.foldl_nil, Option.some.injEq, Prod.mk.injEq] at hr
    omega
  | cons pr t ih =>
    intro st
    rw [List.foldl_cons]
    rcases choisirStep_cases cy dmin dmax dy st pr with
      ⟨he, heq⟩ | ⟨he, heq, hmax⟩ | ⟨he, heq, s, hs, hle⟩
    · -- pr ineligible: the step keeps the state
      rw [heq]
      obtain ⟨ihn, ihs⟩ := ih st
      constructor
      · rw [ihn]
        constructor
        · rintro ⟨h1, h2⟩
          refine ⟨h1, ?_⟩
          intro q hq
          rcases List.mem_cons.mp hq with rfl | hq2
          · exact he
          · exact h2 q hq2
        · rintro ⟨h1, h2⟩
          exact ⟨h1, fun q hq => h2 q (List.mem_cons_of_mem _ hq)⟩
      · intro b L R hr
        obtain ⟨hd, hmaxall, hmono⟩ := ihs b L R hr
        refine ⟨?_, ?_, hmono⟩
        · rcases hd with h1 | ⟨q, hq, hrest⟩
          · exact Or.inl h1
          · exact Or.inr ⟨q, List.mem_cons_of_mem _ hq, hrest⟩
        · intro q hq hel
          rcases List.mem_cons.mp hq with rfl | hq2
          · rw [he] at hel
            cases hel
          · exact hmaxall q hq2 hel
    · -- pr eligible and becomes the new best
      rw [heq]
      obtain ⟨ihn, ihs⟩ := ih (some ((ordonnerPaire pr.1 pr.2).1.v + (ordonnerPaire pr.1 pr.2).2.v,
        (ordonnerPaire pr.1 pr.2).1, (ordonnerPaire pr.1 pr.2).2))
      constructor
      · rw [ihn]
        constructor
        · rintro ⟨h1, h2⟩
          cases h1
        · rintro ⟨h1, h2⟩
          have := h2 pr (List.mem_cons_self pr t)
          rw [he] at this
          cases this
      · intro b L R hr
        obtain ⟨hd, hmaxall, hmono⟩ := ihs b L R hr
        have hscle : (ordonnerPaire pr.1 pr.2).1.v + (ordonnerPaire pr.1 pr.2).2.v ≤ b :=
          hmono _ _ _ rfl
        refine ⟨?_, ?_, ?_⟩
        · rcases hd with h1 | ⟨q, hq, hrest⟩
          · simp only [Option.some.injEq, Prod.mk.injEq] at h1
            obtain ⟨hb, hL, hR⟩ := h1
            refine Or.inr ⟨pr, List.mem_cons_self pr t, he, ?_, ?_⟩
            · rw [← hL, ← hR]
            · rw [← hL, ← hR]
              omega
          · exact Or.inr ⟨q, List.mem_cons_of_mem _ hq, hrest⟩
        · intro q hq hel
          rcases List.mem_cons.mp hq with rfl | hq2
          · exact hscle
          · exact hmaxall q hq2 hel
        · intro b0 L0 R0 h0
          have := hmax (b0, L0, R0) h0
          omega
    · -- pr eligible but not better than the current best
      rw [heq]
      obtain ⟨ihn, ihs⟩ := ih st
      constructor
      · rw [ihn]
        constructor
        · rintro ⟨h1, h2⟩
          rw [hs] at h1
          cases h1
        · rintro ⟨h1, h2⟩
          have := h2 pr (List.mem_cons_self pr t)
          rw [he] at this
          cases this
      · intro b L R hr
        obtain ⟨hd, hmaxall, hmono⟩ := ihs b L R hr
        have hsb : s.1 ≤ b := by
          rcases s with ⟨b1, L1, R1⟩
          exact hmono b1 L1 R1 hs
        refine ⟨?_, ?_, hmono⟩
        · rcases hd with h1 | ⟨q, hq, hrest⟩
          · exact Or.inl h1
          · exact Or.inr ⟨q, List.mem_cons_of_mem _ hq, hrest⟩
        · intro q hq hel
          rcases List.mem_cons.mp hq with rfl | hq2
          · omega
          · exact hmaxall q hq2 hel

/-- Claim C6 (amended): pair selection is a pure function of its inputs
(hence deterministic).  It returns `none` exactly when no pair of distinct
peaks is eligible, where eligibility means: the ROUNDED horizontal
separation of the refined centroids lies in [minDx, maxDx], the ROUNDED
vertical separation is at most maxDy, and both rounded refined heights lie
at or above the face's vertical center (lround(by) <= faceCy).  When it
returns a pair, left/right are assigned by the horizontal order of the
refined centroids, the pair is eligible, and its summed vote value is
maximal among all eligible pairs. -/
theorem C6_pair_selection (pics : List PicPoint) (faceCx faceCy dmin dmax dy : Int) :
    (choisirPaireYeux pics faceCx faceCy dmin dmax dy = none ↔
      ∀ pr ∈ pairesDepuis pics, paireEligible faceCy dmin dmax dy pr.1 pr.2 = false) ∧
    (∀ L R, choisirPaireYeux pics faceCx faceCy dmin dmax dy = some (L, R) →
      (∃ pr ∈ pairesDepuis pics, paireEligible faceCy dmin dmax dy pr.1 pr.2 = true ∧
        (L, R) = ordonnerPaire pr.1 pr.2 ∧ L.bx.fle R.bx) ∧
      (∀ pr ∈ pairesDepuis pics, paireEligible faceCy dmin dmax dy pr.1 pr.2 = true →
        (ordonnerPaire pr.1 pr.2).1.v + (ordonnerPaire pr.1 pr.2).2.v ≤ L.v + R.v)) := by
  obtain ⟨hn, hs⟩ := choisir_foldl_spec faceCy dmin dmax dy (pairesDepuis pics) none
  unfold choisirPaireYeux
  constructor
  · rw [Option.map_eq_none', hn]
    simp
  · intro L R hr
    rw [Option.map_eq_some'] at hr
    obtain ⟨s, hso, hmap⟩ := hr
    simp only [Prod.mk.injEq] at hmap
    obtain ⟨hL, hR⟩ := hmap
    obtain ⟨hd, hmaxall, -⟩ := hs s.1 s.2.1 s.2.2 hso
    rcases hd with h1 | ⟨q, hq, hel, hord, hb⟩
    · cases h1
    · constructor
      · refine ⟨q, hq, hel, ?_, ?_⟩
        · rw [← hL, ← hR]
          exact hord
        · rw [← hL, ← hR]
          have := ordonnerPaire_fle q.1 q.2
          rw [← hord] at this
          exact this
      · intro q2 hq2 hel2
        have := hmaxall q2 hq2 hel2
        have hbv : s.1 = L.v + R.v := by
          rw [← hL, ← hR]
          exact hb
        omega

/-- Counterexample to C6 as stated: with minDx = 10, maxDx = 30, maxDy = 5
and the face center row at faceCy = 0, the code returns the pair
(C6p1, C6p2) even though its true horizontal separation is 9.5 = 475/50,
strictly below minDx (only the rounding lround(9.5) = 10 reaches the bound),
and both refined centroids lie exactly ON the face's vertical center row
(bY = 0 = faceCy), not above it. -/
theorem C6_cex_rounding_and_center :
    choisirPaireYeux [C6p1, C6p2] 0 0 10 30 5 = some (C6p1, C6p2) ∧
    (C6p2.bx.sub C6p1.bx).num < 10 * (C6p2.bx.sub C6p1.bx).den ∧
    C6p1.bY = ⟨0, 1⟩ ∧ C6p2.bY = ⟨0, 1⟩ := by
  refine ⟨by decide, by decide, rfl, rfl⟩

/-! ### The eye ROI: claim C3 -/

theorem eyesPhase_roi_cases (img : GrayImage) (eMs : List eyemodel) (sE eMin : Nat)
    (fb : FaceBest) (fe1 : faceeyes) (hw : 1 ≤ img.w) (hh : 1 ≤ img.h) :
    eyesPhase img eMs sE eMin fb fe1 = fe1 ∨
    (0 ≤ (eyesPhase img eMs sE eMin fb fe1).eyeRoiX ∧
     (eyesPhase img eMs sE eMin fb fe1).eyeRoiX +
       (eyesPhase img eMs sE eMin fb fe1).eyeRoiW ≤ img.w ∧
     0 ≤ (eyesPhase img eMs sE eMin fb fe1).eyeRoiY ∧
     (eyesPhase img eMs sE eMin fb fe1).eyeRoiY +
       (eyesPhase img eMs sE eMin fb fe1).eyeRoiH ≤ img.h ∧
     2 ≤ (eyesPhase img eMs sE eMin fb fe1).eyeRoiW ∧
     2 ≤ (eyesPhase img eMs sE eMin fb fe1).eyeRoiH) := by
  unfold eyesPhase eyeROI
  dsimp only
  have hA := clampInt_lb (fb.x - lroundRat (fb.rx * 12) 10) 0 ((img.w : Int) - 1)
    (by omega)
  have hB := clampInt_ub (fb.x + lroundRat (fb.rx * 12) 10) 0 ((img.w : Int) - 1)
    (by omega)
  have hC := clampInt_lb (fb.y - lroundRat (fb.ry * 11) 10) 0 ((img.h : Int) - 1)
    (by omega)
  have hD := clampInt_ub (fb.y - lroundRat (fb.ry * 15) 100) 0 ((img.h : Int) - 1)
    (by omega)
  split_ifs with h1 h2
  · exact Or.inl rfl
  · right
    push_neg at h1
    dsimp only
    omega
  · right
    push_neg at h1
    split
    · dsimp only
      omega
    · dsimp only
      omega

/-- Claim C3 (amended): whenever the eye stage actually runs (the eye debug
accumulator flag is set, i.e. the sub-image was built and eye voting was
performed), the derived ROI is normalized and clamped inside the image and
each dimension is at least 2 — the code's only size check is
`zx1 <= zx0 || zy1 <= zy0`; there is no 8-pixel minimum, see the
counterexample. -/
theorem C3_roi_clamped_min2 (img : GrayImage) (fMs : List facemodel)
    (eMs : List eyemodel) (sF sE fMin eMin : Nat)
    (hw : 1 ≤ img.w) (hh : 1 ≤ img.h)
    (hdbg : (detectfaceeyes img fMs eMs sF sE fMin eMin).dbgEyeAccuOk = true) :
    0 ≤ (detectfaceeyes img fMs eMs sF sE fMin eMin).eyeRoiX ∧
    (detectfaceeyes img fMs eMs sF sE fMin eMin).eyeRoiX +
      (detectfaceeyes img fMs eMs sF sE fMin eMin).eyeRoiW ≤ img.w ∧
    0 ≤ (detectfaceeyes img fMs eMs sF sE fMin eMin).eyeRoiY ∧
    (detectfaceeyes img fMs eMs sF sE fMin eMin).eyeRoiY +
      (detectfaceeyes img fMs eMs sF sE fMin eMin).eyeRoiH ≤ img.h ∧
    2 ≤ (detectfaceeyes img fMs eMs sF sE fMin eMin).eyeRoiW ∧
    2 ≤ (detectfaceeyes img fMs eMs sF sE fMin eMin).eyeRoiH := by
  unfold detectfaceeyes at hdbg ⊢
  dsimp only at hdbg ⊢
  split_ifs at hdbg ⊢ with h1
  rcases eyesPhase_roi_cases img eMs sE eMin _ _ hw hh with hL | hR
  · rw [hL] at hdbg
    exact Bool.noConfusion hdbg
  · exact hR

set_option maxRecDepth 100000

/-- Witness for C3 at the concrete input: the eye stage runs on `C3img` and
the ROI facts hold there. -/
theorem C3_roi_clamped_min2_witness :
    0 ≤ C3out.eyeRoiX ∧ C3out.eyeRoiX + C3out.eyeRoiW ≤ C3img.w ∧
    0 ≤ C3out.eyeRoiY ∧ C3out.eyeRoiY + C3out.eyeRoiH ≤ C3img.h ∧
    2 ≤ C3out.eyeRoiW ∧ 2 ≤ C3out.eyeRoiH :=
  C3_roi_clamped_min2 C3img [⟨1, 1, C3lut⟩] [⟨1, C3lut⟩] 0 0 1 1
    (by decide) (by decide) (by decide)

/-- Counterexample to C3 as stated: on `C3img` with an rx = ry = 1 face
model the face is found, the derived eye ROI is 3 x 2 — both dimensions
below the claimed 8-pixel minimum — and yet the ROI is not flagged invalid:
the eye stage builds the sub-image and votes in it (cell (0, 0) of the eye
debug accumulator receives a vote). -/
theorem C3_cex_small_roi_used :
    C3out.faceOk = true ∧ C3out.eyeRoiW = 3 ∧ C3out.eyeRoiH = 2 ∧
    C3out.dbgEyeAccuOk = true ∧ C3out.dbgEyeAccu.a 0 0 = 1 := by
  refine ⟨by decide, by decide, by decide, by decide, by decide⟩
